import Mathlib

/-!
Verification development for the mysql-timeline log extraction and merge engine
(`main.go`).  The Go program is shallowly embedded: each Go function becomes an
executable Lean definition, Go runtime panics become `Option.none`, the global
`globalOrderID` counter becomes an explicitly threaded `Nat`, and `bufio.Scanner`
becomes a pair of the remaining lines and the current token.  All string
processing is done on `List Char` via elementary recursive helpers so that every
definition is computable by the kernel.
-/

set_option maxRecDepth 20000

/-- Tests whether `pat` is a leading segment of `l` (character-wise equality).
Models Go string slicing comparisons used by substring search. -/
def beginsWith : List Char → List Char → Bool
  | [], _ => true
  | _ :: _, [] => false
  | a :: as, b :: bs => a == b && beginsWith as bs

/-- Leftmost occurrence search: returns the characters before the first
occurrence of `pat` in `l` and the characters after it.  Models the leftmost
matching of a literal inside a Go regular expression, and `strings.Contains`
when only the presence of the result matters. -/
def subFind (pat : List Char) : List Char → Option (List Char × List Char)
  | [] => if beginsWith pat [] then some ([], []) else none
  | c :: rest =>
    if beginsWith pat (c :: rest) then some ([], (c :: rest).drop pat.length)
    else (subFind pat rest).map (fun p => (c :: p.1, p.2))

/-- Substring containment, modelling Go `strings.Contains`. -/
def containsSeq (pat l : List Char) : Bool := (subFind pat l).isSome

/-- Splits `l` around the rightmost occurrence of the single character `ch`.
Models a greedy `(.*)` group followed by that literal character in a Go
regular expression. -/
def splitAtLast (ch : Char) : List Char → Option (List Char × List Char)
  | [] => none
  | c :: rest =>
    match splitAtLast ch rest with
    | some (a, b) => some (c :: a, b)
    | none => if c == ch then some ([], rest) else none

/-- Splits `l` around the rightmost occurrence of the literal segment `sep`.
Models a greedy `(.*)` group followed by that literal in a Go regular
expression. -/
def splitAtLastSeq (sep : List Char) : List Char → Option (List Char × List Char)
  | [] => if beginsWith sep [] then some ([], []) else none
  | c :: rest =>
    match splitAtLastSeq sep rest with
    | some (a, b) => some (c :: a, b)
    | none =>
      if beginsWith sep (c :: rest) then some ([], (c :: rest).drop sep.length)
      else none

/-- Calendar timestamp with one second resolution, the shallow embedding of the
wall-clock content of Go `time.Time` as produced by `time.Parse` for the three
layouts used by the program. -/
structure DateTime where
  year : Nat
  month : Nat
  day : Nat
  hour : Nat
  minute : Nat
  second : Nat
deriving DecidableEq, Repr

/-- The zero `time.Time` value returned by a failed Go `time.Parse`:
January 1, year 1, 00:00:00. -/
def zeroTime : DateTime := ⟨1, 1, 1, 0, 0, 0⟩

/-- Leap year rule used by Go `time.Parse` day-of-month range validation. -/
def isLeap (y : Nat) : Bool := y % 4 == 0 && (y % 100 != 0 || y % 400 == 0)

/-- Number of days of month `m` of year `y`, as validated by Go `time.Parse`. -/
def daysInMonth (y m : Nat) : Nat :=
  if m == 2 then (if isLeap y then 29 else 28)
  else if m == 4 || m == 6 || m == 9 || m == 11 then 30
  else 31

/-- Field range validation performed by Go `time.Parse`; out-of-range fields
make the parse fail. -/
def mkDateTime (y mo d h mi s : Nat) : Option DateTime :=
  if 1 ≤ mo && mo ≤ 12 && 1 ≤ d && d ≤ daysInMonth y mo
      && h ≤ 23 && mi ≤ 59 && s ≤ 59 then
    some ⟨y, mo, d, h, mi, s⟩
  else none

/-- Numeric value of a decimal digit character. -/
def digitVal (c : Char) : Nat := c.toNat - 48

/-- Value of a two-digit pair. -/
def twoDigits (a b : Char) : Nat := digitVal a * 10 + digitVal b

/-- Go `time.Parse` with layout `2006-01-02 15:04:05` applied to exactly the
19 supplied characters: fixed-width digit fields separated by the literal
separators, then range validation. -/
def parseDefault (l : List Char) : Option DateTime :=
  match l with
  | [y1, y2, y3, y4, '-', m1, m2, '-', d1, d2, ' ', h1, h2, ':', n1, n2, ':', s1, s2] =>
    if [y1, y2, y3, y4, m1, m2, d1, d2, h1, h2, n1, n2, s1, s2].all Char.isDigit then
      mkDateTime (twoDigits y1 y2 * 100 + twoDigits y3 y4)
        (twoDigits m1 m2) (twoDigits d1 d2) (twoDigits h1 h2)
        (twoDigits n1 n2) (twoDigits s1 s2)
    else none
  | _ => none

/-- Go `time.Parse` with layout `20060102 15:04:05` applied to the 17
characters found by the timestamp pattern search. -/
def parseCompact8 (l : List Char) : Option DateTime :=
  match l with
  | [y1, y2, y3, y4, m1, m2, d1, d2, ' ', h1, h2, ':', n1, n2, ':', s1, s2] =>
    if [y1, y2, y3, y4, m1, m2, d1, d2, h1, h2, n1, n2, s1, s2].all Char.isDigit then
      mkDateTime (twoDigits y1 y2 * 100 + twoDigits y3 y4)
        (twoDigits m1 m2) (twoDigits d1 d2) (twoDigits h1 h2)
        (twoDigits n1 n2) (twoDigits s1 s2)
    else none
  | _ => none

/-- Go `time.Parse` with layout `060102 15:04:05` applied to the 15 characters
found by the timestamp pattern search.  Two-digit years follow the Go rule:
69 through 99 mean the 1900s, 00 through 68 mean the 2000s. -/
def parseCompact6 (l : List Char) : Option DateTime :=
  match l with
  | [y1, y2, m1, m2, d1, d2, ' ', h1, h2, ':', n1, n2, ':', s1, s2] =>
    if [y1, y2, m1, m2, d1, d2, h1, h2, n1, n2, s1, s2].all Char.isDigit then
      mkDateTime (if twoDigits y1 y2 ≥ 69 then 1900 + twoDigits y1 y2 else 2000 + twoDigits y1 y2)
        (twoDigits m1 m2) (twoDigits d1 d2) (twoDigits h1 h2)
        (twoDigits n1 n2) (twoDigits s1 s2)
    else none
  | _ => none

/-- Attempts to match, at the head of `l`, the shape of the timestamp regular
expressions of `getTimeWsrepSst` and `getTimeMysqld`: `dcount` digits, a space,
then a two-digit colon-separated time.  Returns the matched characters. -/
def tsAt (dcount : Nat) (l : List Char) : Option (List Char) :=
  let ds := l.take dcount
  if ds.length == dcount && ds.all Char.isDigit then
    match l.drop dcount with
    | ' ' :: h1 :: h2 :: ':' :: n1 :: n2 :: ':' :: s1 :: s2 :: _ =>
      if [h1, h2, n1, n2, s1, s2].all Char.isDigit then
        some (ds ++ ' ' :: h1 :: h2 :: ':' :: n1 :: n2 :: ':' :: s1 :: s2 :: [])
      else none
    | _ => none
  else none

/-- Leftmost match of the timestamp shape in `l`, modelling
`regexp.FindStringSubmatch` for the patterns of `getTimeWsrepSst` (8 leading
digits) and `getTimeMysqld` (6 leading digits): candidate start positions are
tried left to right. -/
def tsFind (dcount : Nat) : List Char → Option (List Char)
  | [] => none
  | c :: rest =>
    match tsAt dcount (c :: rest) with
    | some m => some m
    | none => tsFind dcount rest

/-- Embedding of `getTimeDefault` (main.go:434): slices the first 19 bytes of
the line — a Go slice of a shorter string panics, modelled as `none` — and
parses them with the default layout, falling back to the zero time when the
parse fails (the function only prints a diagnostic on error). -/
def getTimeDefault (line : String) : Option DateTime :=
  if line.data.length < 19 then none
  else some ((parseDefault (line.data.take 19)).getD zeroTime)

/-- Embedding of `getTimeWsrepSst` (main.go:445): searches the line for the
eight-digit-date timestamp pattern; an absent pattern makes the Go code index a
nil submatch slice, a panic modelled as `none`; a found pattern is parsed with
the compact layout, falling back to the zero time on a range error. -/
def getTimeWsrepSst (line : String) : Option DateTime :=
  match tsFind 8 line.data with
  | none => none
  | some m => some ((parseCompact8 m).getD zeroTime)

/-- Embedding of `getTimeMysqld` (main.go:458): searches the line for the
six-digit-date timestamp pattern; an absent pattern makes the Go code index a
nil submatch slice, a panic modelled as `none`; a found pattern is parsed with
the legacy layout, falling back to the zero time on a range error. -/
def getTimeMysqld (line : String) : Option DateTime :=
  match tsFind 6 line.data with
  | none => none
  | some m => some ((parseCompact6 m).getD zeroTime)

/-- Embedding of the `Event` struct (main.go:21): timestamp, run-wide discovery
order identifier, node index, human message, and the raw matched lines joined
with newlines. -/
structure Event where
  Datetime : DateTime
  GlobalOrderID : Nat
  Node : Nat
  Message : String
  Raw : String
deriving DecidableEq, Repr

/-- Embedding of `bufio.Scanner` state as used by the program: the most recent
token returned by `Text()` and the lines not yet scanned. -/
structure Scanner where
  rest : List String
  cur : String
deriving DecidableEq, Repr

/-- One `Scan()` step: advances to the next line and reports success; at end of
stream `Scan()` returns false and `Text()` returns the empty string. -/
def scan (sc : Scanner) : Scanner × Bool :=
  match sc.rest with
  | [] => (⟨[], ""⟩, false)
  | l :: ls => (⟨ls, l⟩, true)

/-- Embedding of `scanLines` (main.go:471): appends the current token, then
scans, `count` times in total; when the stream ends early the failed `Scan()`
calls leave `Text()` empty, so the result is padded with empty strings (the Go
code never calls this with `count = 0`, where it would loop forever; that case
is mapped to an empty result). -/
def scanLines (sc : Scanner) : Nat → List String × Scanner
  | 0 => ([], sc)
  | 1 => ([sc.cur], sc)
  | n + 2 =>
    let sc' := (scan sc).1
    let p := scanLines sc' (n + 1)
    (sc.cur :: p.1, p.2)

/-- Embedding of `strings.Join(raw, newline)` used by `NewEvent`. -/
def joinLines : List String → String
  | [] => ""
  | [s] => s
  | s :: rest => s ++ "\n" ++ joinLines rest

/-- Embedding of `NewEvent` (main.go:39): increments the run-wide counter and
stamps the new value as the event identifier; the counter is threaded
explicitly instead of the Go package-level variable. -/
def NewEvent (t : DateTime) (node : Nat) (message : String) (raw : List String)
    (c : Nat) : Event × Nat :=
  (⟨t, c + 1, node, message, joinLines raw⟩, c + 1)

/-- Embedding of `printDanger` (main.go:56). -/
def printDanger (line : String) : String := "<danger>" ++ line ++ "</danger>"

/-- Embedding of `printSuccess` (main.go:60). -/
def printSuccess (line : String) : String := "<success>" ++ line ++ "</success>"

/-- Embedding of the `shiftState` map (main.go:74); a Go map lookup of a
missing key yields the zero value 0. -/
def shiftState : String → Nat
  | "ERROR" => 10
  | "DESTROYED" => 20
  | "CLOSED" => 30
  | "OPEN" => 40
  | "PRIMARY" => 50
  | "JOINER" => 60
  | "DONOR/DESYNCED" => 70
  | "DONOR" => 75
  | "JOINED" => 80
  | "SYNCED" => 90
  | _ => 0

/-- Embedding of an `EventMatcher` (main.go:33).  `Get` consumes lines from the
scanner and builds an event; a Go panic inside the extractor (nil submatch
indexing, out-of-range slice) is modelled as `none`.  The run-wide counter is
threaded through. -/
structure EventMatcher where
  Description : String
  Signature : String
  Get : Scanner → Nat → Option (Event × Scanner × Nat)

/-- Embedding of `EventMatcher.Match` (main.go:52), Go `strings.Contains`. -/
def EventMatcher.Match (e : EventMatcher) (line : String) : Bool :=
  containsSeq e.Signature.data line.data

/-- Submatch model for the pattern of the state shift matcher (main.go:116):
the literal Shifting marker, a greedy group up to the rightmost arrow, a greedy
group up to the rightmost TO marker, then digits and a closing parenthesis.
Returns the two captured state names, or `none` when the pattern does not
match (the Go code then panics on the nil submatch slice). -/
def shiftSubmatch (l : List Char) : Option (List Char × List Char) :=
  match subFind " Shifting ".data l with
  | none => none
  | some (_, r) =>
    match splitAtLastSeq " -> ".data r with
    | none => none
    | some (s1, r2) =>
      match splitAtLastSeq " (TO: ".data r2 with
      | none => none
      | some (s2, tail) =>
        match (tail.dropWhile Char.isDigit) with
        | ')' :: _ => some (s1, s2)
        | _ => none

/-- Extractor of the state shift matcher (main.go:111). -/
def getShifting (sc : Scanner) (c : Nat) : Option (Event × Scanner × Nat) :=
  let p := scanLines sc 1
  let l0 := p.1.headD ""
  match getTimeDefault l0 with
  | none => none
  | some t =>
    match shiftSubmatch l0.data with
    | none => none
    | some (s1, s2) =>
      let from_ : String := ⟨s1⟩
      let to_ : String := ⟨s2⟩
      let message := from_ ++ " => " ++
        (if shiftState from_ > shiftState to_ then printDanger to_ else printSuccess to_)
      let e := NewEvent t 0 message p.1 c
      some (e.1, p.2, e.2)

/-- Submatch model for the component pattern of the quorum matcher
(main.go:146): the literal component marker, then a greedy group up to the
rightmost comma. -/
def componentSubmatch (l : List Char) : Option (List Char) :=
  match subFind "component  = ".data l with
  | none => none
  | some (_, r) =>
    match splitAtLast ',' r with
    | none => none
    | some (a, _) => some a

/-- Submatch model for the members pattern of the quorum matcher (main.go:149):
the literal members marker, a digit group, a slash, a digit group, then the
literal joined/total marker. -/
def membersSubmatch (l : List Char) : Option (List Char × List Char) :=
  match subFind "members    = ".data l with
  | none => none
  | some (_, r) =>
    let j := r.takeWhile Char.isDigit
    match r.dropWhile Char.isDigit with
    | '/' :: r2 =>
      let t := r2.takeWhile Char.isDigit
      if beginsWith " (joined/total),".data (r2.dropWhile Char.isDigit) then
        some (j, t)
      else none
    | _ => none

/-- Extractor of the quorum results matcher (main.go:133): reads a fixed
9-line record, parses the component from record line 2 and the member ratio
from record line 4, and flags non-primary components and ratios whose joined
and total figures differ. -/
def getQuorum (sc : Scanner) (c : Nat) : Option (Event × Scanner × Nat) :=
  let p := scanLines sc 9
  let lines := p.1
  match getTimeDefault (lines.headD "") with
  | none => none
  | some t =>
    match componentSubmatch (lines.getD 2 "").data with
    | none => none
    | some comp =>
      match membersSubmatch (lines.getD 4 "").data with
      | none => none
      | some (mj, mt) =>
        let component : String := ⟨comp⟩
        let membersJoined : String := ⟨mj⟩
        let membersTotal : String := ⟨mt⟩
        let componentString :=
          if component = "PRIMARY" then printSuccess component else printDanger component
        let membersString :=
          if membersJoined = membersTotal then printSuccess (membersJoined ++ "/" ++ membersTotal)
          else printDanger (membersJoined ++ "/" ++ membersTotal)
        let message := "Component: " ++ componentString ++ ", Members: " ++ membersString
        let e := NewEvent t 0 message lines c
        some (e.1, p.2, e.2)

/-- Embedding of `strings.SplitN(s, sep, n)` for a single-character separator:
at most `n` pieces, the last piece keeping the remainder. -/
def splitNCh (ch : Char) : Nat → List Char → List (List Char)
  | 0, _ => []
  | 1, l => [l]
  | n + 2, l =>
    match subFind [ch] l with
    | none => [l]
    | some (a, b) => a :: splitNCh ch (n + 1) b

/-- Embedding of `strings.Trim(s, " ")`: removes leading and trailing
spaces. -/
def trimSpaces (l : List Char) : List Char :=
  ((l.dropWhile (· == ' ')).reverse.dropWhile (· == ' ')).reverse

/-- Extractor of the state transfer required matcher (main.go:176): reads a
3-line record, splits record lines 1 and 2 on colons into three pieces each
(fewer pieces make the Go code panic on the index, modelled as `none`), and
flags a local sequence number of -1. -/
def getStateTransfer (sc : Scanner) (c : Nat) : Option (Event × Scanner × Nat) :=
  let p := scanLines sc 3
  let lines := p.1
  match getTimeDefault (lines.headD "") with
  | none => none
  | some t =>
    match splitNCh ':' 3 (lines.getD 1 "").data, splitNCh ':' 3 (lines.getD 2 "").data with
    | [_, g1, g2], [_, l1, l2] =>
      let groupStateString : String := ⟨trimSpaces g1⟩ ++ ":" ++ ⟨trimSpaces g2⟩
      let localStateString : String := ⟨trimSpaces l1⟩ ++ ":" ++ ⟨trimSpaces l2⟩
      let localShown :=
        if (⟨l2⟩ : String) = "-1" then printDanger localStateString
        else printSuccess localStateString
      let message := "Group: " ++ groupStateString ++ "\nLocal: " ++ localShown
      let e := NewEvent t 0 message lines c
      some (e.1, p.2, e.2)
    | _, _ => none

/-- Submatch model for the recovered position pattern (main.go:207): the
literal marker, a greedy group up to the rightmost colon, and the rest. -/
def recoveredSubmatch (l : List Char) : Option (List Char × List Char) :=
  match subFind "Recovered position ".data l with
  | none => none
  | some (_, r) => splitAtLast ':' r

/-- Extractor of the recovered position matcher (main.go:202): single line,
legacy timestamp layout, flags a sequence number of -1. -/
def getRecovered (sc : Scanner) (c : Nat) : Option (Event × Scanner × Nat) :=
  let p := scanLines sc 1
  let l0 := p.1.headD ""
  match getTimeMysqld l0 with
  | none => none
  | some t =>
    match recoveredSubmatch l0.data with
    | none => none
    | some (u, s) =>
      let uuid : String := ⟨u⟩
      let seqno : String := ⟨s⟩
      let recoveredString :=
        if seqno = "-1" then printDanger (uuid ++ ":" ++ seqno)
        else printSuccess (uuid ++ ":" ++ seqno)
      let message := "Recovered position: " ++ recoveredString
      let e := NewEvent t 0 message p.1 c
      some (e.1, p.2, e.2)

/-- Extractor of the interruptor matcher (main.go:227): single line, SST
timestamp layout, fixed danger message. -/
def getInterruptor (sc : Scanner) (c : Nat) : Option (Event × Scanner × Nat) :=
  let p := scanLines sc 1
  match getTimeWsrepSst (p.1.headD "") with
  | none => none
  | some t =>
    let message := printDanger "++++++++++ Interruptor ++++++++++"
    let e := NewEvent t 0 message p.1 c
    some (e.1, p.2, e.2)

/-- Extractor of the MySQL ended matcher (main.go:242): single line, legacy
timestamp layout, fixed danger message. -/
def getPidEnded (sc : Scanner) (c : Nat) : Option (Event × Scanner × Nat) :=
  let p := scanLines sc 1
  match getTimeMysqld (p.1.headD "") with
  | none => none
  | some t =>
    let e := NewEvent t 0 (printDanger "PID ended") p.1 c
    some (e.1, p.2, e.2)

/-- Extractor of the normal shutdown matcher (main.go:255). -/
def getNormalShutdown (sc : Scanner) (c : Nat) : Option (Event × Scanner × Nat) :=
  let p := scanLines sc 1
  match getTimeDefault (p.1.headD "") with
  | none => none
  | some t =>
    let e := NewEvent t 0 (printSuccess "Normal Shutdown") p.1 c
    some (e.1, p.2, e.2)

/-- Extractor of the MySQL startup matcher (main.go:268). -/
def getStartup (sc : Scanner) (c : Nat) : Option (Event × Scanner × Nat) :=
  let p := scanLines sc 1
  match getTimeDefault (p.1.headD "") with
  | none => none
  | some t =>
    let e := NewEvent t 0 "MySQL startup" p.1 c
    some (e.1, p.2, e.2)

/-- Extractor of the InnoDB shutdown matcher (main.go:281). -/
def getInnodbShutdown (sc : Scanner) (c : Nat) : Option (Event × Scanner × Nat) :=
  let p := scanLines sc 1
  match getTimeDefault (p.1.headD "") with
  | none => none
  | some t =>
    let e := NewEvent t 0 "InnoDB shutdown" p.1 c
    some (e.1, p.2, e.2)

/-- Extractor of the shutdown complete matcher (main.go:294). -/
def getShutdownComplete (sc : Scanner) (c : Nat) : Option (Event × Scanner × Nat) :=
  let p := scanLines sc 1
  match getTimeDefault (p.1.headD "") with
  | none => none
  | some t =>
    let e := NewEvent t 0 "MySQL shutdown complete" p.1 c
    some (e.1, p.2, e.2)

/-- Extractor of the primary not possible matcher (main.go:307). -/
def getPrimaryNotPossible (sc : Scanner) (c : Nat) : Option (Event × Scanner × Nat) :=
  let p := scanLines sc 1
  match getTimeDefault (p.1.headD "") with
  | none => none
  | some t =>
    let e := NewEvent t 0 "Primary not possible" p.1 c
    some (e.1, p.2, e.2)

/-- Submatch model for the view identifier pattern (main.go:330): the literal
view marker, then a greedy run of capital letters and underscores, which the
pattern requires to be followed by a comma. -/
def viewSubmatch (l : List Char) : Option (List Char) :=
  match subFind "view(view_id(".data l with
  | none => none
  | some (_, r) =>
    let isViewChar : Char → Bool := fun ch => (65 ≤ ch.toNat && ch.toNat ≤ 90) || ch == '_'
    match r.dropWhile isViewChar with
    | ',' :: _ => some (r.takeWhile isViewChar)
    | _ => none

/-- Extractor of the cluster view matcher (main.go:320): an empty view is
reported verbatim; a view_id line is parsed with the view pattern (a pattern
failure makes the Go code panic on the nil submatch slice); otherwise the view
field of the message stays empty. -/
def getView (sc : Scanner) (c : Nat) : Option (Event × Scanner × Nat) :=
  let p := scanLines sc 1
  let l0 := p.1.headD ""
  match getTimeDefault l0 with
  | none => none
  | some t =>
    let view? : Option String :=
      if containsSeq "empty".data l0.data then some "empty"
      else if containsSeq "view_id".data l0.data then
        (viewSubmatch l0.data).map (fun v => (⟨v⟩ : String))
      else some ""
    match view? with
    | none => none
    | some view =>
      let e := NewEvent t 0 ("WSREP view => " ++ view) p.1 c
      some (e.1, p.2, e.2)

/-- Submatch model for the SST role and address pattern (main.go:348): the
literal role marker, a greedy group up to the rightmost address marker, then a
lazy group up to the next quote-dash-dash separator. -/
def roleAddrSubmatch (l : List Char) : Option (List Char × List Char) :=
  match subFind "--role ".data l with
  | none => none
  | some (_, r0) =>
    match r0 with
    | q :: r =>
      if q == '\x27' then
        match splitAtLastSeq "\x27 --address \x27".data r with
        | none => none
        | some (role, r2) =>
          match subFind "\x27 --".data r2 with
          | none => none
          | some (addr, _) => some (role, addr)
      else none
    | [] => none

/-- Extractor of the xtrabackup matcher (main.go:343): single line, default
timestamp layout, messages keyed on the SST role. -/
def getXtrabackup (sc : Scanner) (c : Nat) : Option (Event × Scanner × Nat) :=
  let p := scanLines sc 1
  let l0 := p.1.headD ""
  match getTimeDefault l0 with
  | none => none
  | some t =>
    match roleAddrSubmatch l0.data with
    | none => none
    | some (ro, ad) =>
      let role : String := ⟨ro⟩
      let address : String := ⟨ad⟩
      let message :=
        if role = "joiner" then "Joining from " ++ address
        else if role = "donor" then "Donating to " ++ address
        else "Oops :-o"
      let e := NewEvent t 0 message p.1 c
      some (e.1, p.2, e.2)

/-- Submatch model for the transaction identifier pattern (main.go:373): the
literal marker, then a greedy group reaching the end of the line. -/
def xidSubmatch (l : List Char) : Option (List Char) :=
  match subFind "Set WSREPXid for InnoDB:  ".data l with
  | none => none
  | some (_, r) => some r

/-- Extractor of the transaction identifier matcher (main.go:368). -/
def getWsrepXid (sc : Scanner) (c : Nat) : Option (Event × Scanner × Nat) :=
  let p := scanLines sc 1
  let l0 := p.1.headD ""
  match getTimeDefault l0 with
  | none => none
  | some t =>
    match xidSubmatch l0.data with
    | none => none
    | some x =>
      let e := NewEvent t 0 ("WSREPXid = " ++ (⟨x⟩ : String)) p.1 c
      some (e.1, p.2, e.2)

/-- Extractor of the node consistency matcher (main.go:385). -/
def getConsistency (sc : Scanner) (c : Nat) : Option (Event × Scanner × Nat) :=
  let p := scanLines sc 1
  match getTimeDefault (p.1.headD "") with
  | none => none
  | some t =>
    let e := NewEvent t 0 (printDanger "Node consistency compromized") p.1 c
    some (e.1, p.2, e.2)

/-- Extractor of the replication SQL error matcher (main.go:398): the pattern
based extraction is commented out in the source, leaving a fixed message. -/
def getSlaveSqlError (sc : Scanner) (c : Nat) : Option (Event × Scanner × Nat) :=
  let p := scanLines sc 1
  match getTimeDefault (p.1.headD "") with
  | none => none
  | some t =>
    let e := NewEvent t 0 (printDanger "Slave SQL Error") p.1 c
    some (e.1, p.2, e.2)

/-- Submatch model for the fatal error pattern (main.go:422): the literal
marker with its trailing space, then a greedy group reaching the end of the
line. -/
def fatalSubmatch (l : List Char) : Option (List Char) :=
  match subFind " Fatal error: ".data l with
  | none => none
  | some (_, r) => some r

/-- Extractor of the fatal error matcher (main.go:417). -/
def getFatalError (sc : Scanner) (c : Nat) : Option (Event × Scanner × Nat) :=
  let p := scanLines sc 1
  let l0 := p.1.headD ""
  match getTimeDefault l0 with
  | none => none
  | some t =>
    match fatalSubmatch l0.data with
    | none => none
    | some fe =>
      let message := "<danger>Fatal Error: " ++ (⟨fe⟩ : String) ++ "</danger>"
      let e := NewEvent t 0 message p.1 c
      some (e.1, p.2, e.2)

/-- The state shift matcher (main.go:108). -/
def matcherShifting : EventMatcher := ⟨"Node is changing state", "WSREP: Shifting", getShifting⟩

/-- The quorum results matcher (main.go:130). -/
def matcherQuorum : EventMatcher := ⟨"Quorum results", "WSREP: Quorum results:", getQuorum⟩

/-- The state transfer required matcher (main.go:173). -/
def matcherStateTransfer : EventMatcher :=
  ⟨"State Transfer Required", "WSREP: State transfer required:", getStateTransfer⟩

/-- The recovered position matcher (main.go:199). -/
def matcherRecovered : EventMatcher :=
  ⟨"WSREP recovered position", "WSREP: Recovered position ", getRecovered⟩

/-- The interruptor matcher (main.go:224). -/
def matcherInterruptor : EventMatcher :=
  ⟨"Interruptor", "SST disabled due to danger of data loss", getInterruptor⟩

/-- The MySQL ended matcher (main.go:239). -/
def matcherPidEnded : EventMatcher := ⟨"MySQL ended", " from pid file ", getPidEnded⟩

/-- The normal shutdown matcher (main.go:252). -/
def matcherNormalShutdown : EventMatcher :=
  ⟨"MySQL normal shutdown", "mysqld: Normal shutdown", getNormalShutdown⟩

/-- The MySQL startup matcher (main.go:265). -/
def matcherStartup : EventMatcher := ⟨"MySQL startup", "starting as process", getStartup⟩

/-- The InnoDB shutdown matcher (main.go:278). -/
def matcherInnodbShutdown : EventMatcher :=
  ⟨"InnoDB shutdown", "InnoDB: Starting shutdown...", getInnodbShutdown⟩

/-- The shutdown complete matcher (main.go:291). -/
def matcherShutdownComplete : EventMatcher :=
  ⟨"InnoDB shutdown complete", "mysqld: Shutdown complete", getShutdownComplete⟩

/-- The primary not possible matcher (main.go:304). -/
def matcherPrimaryNotPossible : EventMatcher :=
  ⟨"Primary not possible", "WSREP: no nodes coming from prim view", getPrimaryNotPossible⟩

/-- The cluster view matcher (main.go:317). -/
def matcherView : EventMatcher := ⟨"Cluster View", "WSREP: view(", getView⟩

/-- The xtrabackup matcher (main.go:340). -/
def matcherXtrabackup : EventMatcher := ⟨"xtrabackup", "WSREP: Running: ", getXtrabackup⟩

/-- The transaction identifier matcher (main.go:365). -/
def matcherWsrepXid : EventMatcher :=
  ⟨"WSREP Transaction ID", "WSREP: Set WSREPXid for InnoDB: ", getWsrepXid⟩

/-- The node consistency matcher (main.go:382). -/
def matcherConsistency : EventMatcher :=
  ⟨"Node consistency compromized", "WSREP: Node consistency compromized", getConsistency⟩

/-- The replication SQL error matcher (main.go:395). -/
def matcherSlaveSqlError : EventMatcher :=
  ⟨"Slave SQL Error", " Slave SQL: Error", getSlaveSqlError⟩

/-- The fatal error matcher (main.go:414). -/
def matcherFatalError : EventMatcher := ⟨"Fatal Error", " Fatal error:", getFatalError⟩

/-- The ordered matcher registry (main.go:107). -/
def eventMatchers : List EventMatcher :=
  [matcherShifting, matcherQuorum, matcherStateTransfer, matcherRecovered,
   matcherInterruptor, matcherPidEnded, matcherNormalShutdown, matcherStartup,
   matcherInnodbShutdown, matcherShutdownComplete, matcherPrimaryNotPossible,
   matcherView, matcherXtrabackup, matcherWsrepXid, matcherConsistency,
   matcherSlaveSqlError, matcherFatalError]

/-- Embedding of the inner matcher loop of `getEventsFromNode` (main.go:495):
matchers are tried in registry order and the first whose signature is contained
in the line is selected; the `break` after a hit means no later matcher is
tried. -/
def findM (line : String) : List EventMatcher → Option EventMatcher
  | [] => none
  | m :: ms => if m.Match line then some m else findM line ms

/-- Embedding of the scanning loop of `getEventsFromNode` (main.go:494): scan a
line, select the first matching matcher, run its extractor from the scanner
positioned at the matched line, overwrite the node field of the returned event
with this pipeline node index, and continue after the consumed record.  A panic
inside an extractor aborts the whole file, modelled as `none`.  The `fuel`
argument only bounds the recursion; every call goes through
`getEventsFromNode`, which supplies enough fuel for the loop to reach the end
of the stream. -/
def runLoop (node : Nat) : Nat → List String → Nat → Option (List Event × Nat)
  | 0, _, c => some ([], c)
  | _ + 1, [], c => some ([], c)
  | fuel + 1, line :: rest, c =>
    match findM line eventMatchers with
    | none => runLoop node fuel rest c
    | some m =>
      match m.Get ⟨rest, line⟩ c with
      | none => none
      | some (ev, sc', c') =>
        (runLoop node fuel sc'.rest c').map
          (fun p => ({ ev with Node := node } :: p.1, p.2))

/-- Embedding of `getEventsFromNode` (main.go:483) on the file content given as
a list of lines, threading the run-wide counter. -/
def getEventsFromNode (node : Nat) (lines : List String) (c : Nat) :
    Option (List Event × Nat) :=
  runLoop node (lines.length + 1) lines c

/-- Embedding of the per-file loop of `main` (main.go:602): files are processed
sequentially in argument order, the node index being the file position, and the
per-node event lists are concatenated. -/
def processFilesAux : List (List String) → Nat → Nat → Option (List Event × Nat)
  | [], _, c => some ([], c)
  | f :: fs, i, c =>
    match getEventsFromNode i f c with
    | none => none
    | some (evs, c') =>
      (processFilesAux fs (i + 1) c').map (fun p => (evs ++ p.1, p.2))

/-- The concatenated timeline of all files before sorting, starting from node
index 0 and counter 0 as in `main`. -/
def processFiles (files : List (List String)) : Option (List Event) :=
  (processFilesAux files 0 0).map (fun p => p.1)

/-- Lexicographic comparison of the calendar fields, listed most significant
first; equivalent to the instant comparison `time.Time.Before` for the
range-validated timestamps the program constructs. -/
def lexLt : List Nat → List Nat → Bool
  | [], [] => false
  | [], _ :: _ => true
  | _ :: _, [] => false
  | a :: as, b :: bs => if a < b then true else if b < a then false else lexLt as bs

/-- The calendar fields of a timestamp, most significant first. -/
def DateTime.fields (t : DateTime) : List Nat :=
  [t.year, t.month, t.day, t.hour, t.minute, t.second]

/-- Embedding of `time.Time.Before` on the program timestamps. -/
def dtBefore (a b : DateTime) : Bool := lexLt a.fields b.fields

/-- The comparison closure passed to `sort.Slice` in `main` (main.go:609):
events with equal timestamps are ordered by their discovery identifier,
otherwise by timestamp. -/
def eventLess (a b : Event) : Bool :=
  if a.Datetime = b.Datetime then a.GlobalOrderID < b.GlobalOrderID
  else dtBefore a.Datetime b.Datetime

/-- Inserts an event into a list sorted by `eventLess`. -/
def insertEv (e : Event) : List Event → List Event
  | [] => [e]
  | x :: xs => if eventLess e x then e :: x :: xs else x :: insertEv e xs

/-- Embedding of the `sort.Slice` call of `main` (main.go:609) as insertion
sort with the same comparison closure.  `sort.Slice` is an unspecified
comparison sort; because the closure is a strict total order on the events the
program produces (their discovery identifiers are pairwise distinct), every
comparison sort yields the same, unique sorted sequence, so this definition
computes exactly the slice `sort.Slice` leaves behind. -/
def sortTimeline : List Event → List Event
  | [] => []
  | e :: es => insertEv e (sortTimeline es)

/-- Embedding of `main` (main.go:596) up to the rendering stage, which is out
of scope: extract all files and sort the pooled timeline. -/
def mainTimeline (files : List (List String)) : Option (List Event) :=
  (processFilesAux files 0 0).map (fun p => sortTimeline p.1)

lemma lexLt_irrefl (l : List Nat) : lexLt l l = false := by
  induction l with
  | nil => rfl
  | cons a as ih => simp [lexLt, ih]

lemma lexLt_trans {a b c : List Nat} (h1 : lexLt a b = true) (h2 : lexLt b c = true) :
    lexLt a c = true := by
  induction a generalizing b c with
  | nil =>
    cases b with
    | nil => simp [lexLt] at h1
    | cons y ys =>
      cases c with
      | nil => simp [lexLt] at h2
      | cons z zs => simp [lexLt]
  | cons x xs ih =>
    cases b with
    | nil => simp [lexLt] at h1
    | cons y ys =>
      cases c with
      | nil => simp [lexLt] at h2
      | cons z zs =>
        simp only [lexLt] at h1 h2 ⊢
        by_cases hxy : x < y
        · by_cases hyz : y < z
          · rw [if_pos (Nat.lt_trans hxy hyz)]
          · rw [if_neg hyz] at h2
            by_cases hzy : z < y
            · rw [if_pos hzy] at h2
              exact Bool.noConfusion h2
            · have hyz' : y = z := Nat.le_antisymm (Nat.le_of_not_lt hzy) (Nat.le_of_not_lt hyz)
              subst hyz'
              rw [if_pos hxy]
        · rw [if_neg hxy] at h1
          by_cases hyx : y < x
          · rw [if_pos hyx] at h1
            exact Bool.noConfusion h1
          · rw [if_neg hyx] at h1
            have hxy' : x = y := Nat.le_antisymm (Nat.le_of_not_lt hyx) (Nat.le_of_not_lt hxy)
            subst hxy'
            by_cases hxz : x < z
            · rw [if_pos hxz]
            · rw [if_neg hxz] at h2 ⊢
              by_cases hzx : z < x
              · rw [if_pos hzx] at h2
                exact Bool.noConfusion h2
              · rw [if_neg hzx] at h2 ⊢
                exact ih h1 h2

lemma lexLt_asymm {a b : List Nat} (h : lexLt a b = true) : lexLt b a = false := by
  by_contra hc
  have hba : lexLt b a = true := by
    cases hb : lexLt b a
    · exact absurd hb hc
    · rfl
  have := lexLt_trans h hba
  rw [lexLt_irrefl] at this
  exact Bool.noConfusion this

lemma lexLt_connex {a b : List Nat} (h1 : lexLt a b = false) (h2 : lexLt b a = false) :
    a = b := by
  induction a generalizing b with
  | nil =>
    cases b with
    | nil => rfl
    | cons y ys => simp [lexLt] at h1
  | cons x xs ih =>
    cases b with
    | nil => simp [lexLt] at h2
    | cons y ys =>
      simp only [lexLt] at h1 h2
      by_cases hxy : x < y
      · rw [if_pos hxy] at h1
        exact Bool.noConfusion h1
      · rw [if_neg hxy] at h1
        by_cases hyx : y < x
        · rw [if_pos hyx] at h2
          exact Bool.noConfusion h2
        · rw [if_neg hyx] at h1
          have hxy' : x = y := Nat.le_antisymm (Nat.le_of_not_lt hyx) (Nat.le_of_not_lt hxy)
          subst hxy'
          rw [if_neg (Nat.lt_irrefl x), if_neg (Nat.lt_irrefl x)] at h2
          rw [ih h1 h2]

lemma DateTime.fields_inj {a b : DateTime} (h : a.fields = b.fields) : a = b := by
  cases a
  cases b
  simp [DateTime.fields] at h
  obtain ⟨h1, h2, h3, h4, h5, h6⟩ := h
  simp [h1, h2, h3, h4, h5, h6]

lemma eventLess_asymm {a b : Event} (h : eventLess a b = true) : eventLess b a = false := by
  unfold eventLess at h ⊢
  by_cases hdt : a.Datetime = b.Datetime
  · simp [hdt] at h ⊢
    omega
  · have hdt' : ¬ b.Datetime = a.Datetime := fun hh => hdt hh.symm
    simp [hdt, hdt'] at h ⊢
    unfold dtBefore at h ⊢
    exact lexLt_asymm h

lemma eventLess_both_false {a b : Event} (h1 : eventLess a b = false)
    (h2 : eventLess b a = false) :
    a.Datetime = b.Datetime ∧ a.GlobalOrderID = b.GlobalOrderID := by
  unfold eventLess at h1 h2
  by_cases hdt : a.Datetime = b.Datetime
  · rw [if_pos hdt] at h1
    rw [if_pos hdt.symm] at h2
    simp at h1 h2
    exact ⟨hdt, by omega⟩
  · rw [if_neg hdt] at h1
    rw [if_neg (fun hh => hdt hh.symm)] at h2
    unfold dtBefore at h1 h2
    exact absurd (DateTime.fields_inj (lexLt_connex h1 h2)) hdt

lemma eventLess_trans {a b c : Event} (h1 : eventLess a b = true)
    (h2 : eventLess b c = true) : eventLess a c = true := by
  unfold eventLess at h1 h2 ⊢
  by_cases hab : a.Datetime = b.Datetime
  · by_cases hbc : b.Datetime = c.Datetime
    · have hac : a.Datetime = c.Datetime := hab.trans hbc
      simp [hab, hbc, hac] at h1 h2 ⊢
      omega
    · have hac : ¬ a.Datetime = c.Datetime := by
        intro hh
        exact hbc (hab.symm.trans hh)
      simp [hab, hbc, hac] at h1 h2 ⊢
      unfold dtBefore at h2 ⊢
      exact h2
  · by_cases hbc : b.Datetime = c.Datetime
    · have hac : ¬ a.Datetime = c.Datetime := by
        intro hh
        exact hab (hh.trans hbc.symm)
      simp [hab, hbc, hac] at h1 h2 ⊢
      unfold dtBefore at h1 ⊢
      exact h1
    · by_cases hac : a.Datetime = c.Datetime
      · exfalso
        simp [hab, hbc] at h1 h2
        unfold dtBefore at h1 h2
        have h3 : lexLt c.Datetime.fields b.Datetime.fields = false := lexLt_asymm h2
        have h4 : lexLt a.Datetime.fields b.Datetime.fields = true := h1
        rw [hac] at h4
        rw [h4] at h3
        exact Bool.noConfusion h3
      · simp [hab, hbc, hac] at h1 h2 ⊢
        unfold dtBefore at h1 h2 ⊢
        exact lexLt_trans h1 h2

lemma mem_insertEv {y e : Event} {l : List Event} :
    y ∈ insertEv e l ↔ y = e ∨ y ∈ l := by
  induction l with
  | nil => simp [insertEv]
  | cons x xs ih =>
    simp only [insertEv]
    by_cases h : eventLess e x = true
    · simp [h]
    · simp [h, ih]
      tauto

lemma insertEv_perm (e : Event) (l : List Event) : (insertEv e l).Perm (e :: l) := by
  induction l with
  | nil => simp [insertEv]
  | cons x xs ih =>
    simp only [insertEv]
    by_cases h : eventLess e x = true
    · simp [h]
    · simp only [h, if_false]
      exact ((ih.cons x).trans (List.Perm.swap e x xs))

lemma pairwise_insertEv {e : Event} {l : List Event}
    (h : List.Pairwise (fun a b => eventLess b a = false) l) :
    List.Pairwise (fun a b => eventLess b a = false) (insertEv e l) := by
  induction l with
  | nil => simp [insertEv]
  | cons x xs ih =>
    rw [List.pairwise_cons] at h
    obtain ⟨hx, hxs⟩ := h
    simp only [insertEv]
    by_cases hle : eventLess e x = true
    · rw [if_pos hle]
      refine List.Pairwise.cons ?_ (List.Pairwise.cons hx hxs)
      intro y hy
      rcases List.mem_cons.mp hy with hy1 | hy1
      · subst hy1
        exact eventLess_asymm hle
      · have h1 : eventLess y x = false := hx y hy1
        cases h2 : eventLess y e
        · rfl
        · exfalso
          have := eventLess_trans h2 hle
          rw [h1] at this
          exact Bool.noConfusion this
    · rw [if_neg hle]
      refine List.Pairwise.cons ?_ (ih hxs)
      intro y hy
      rcases mem_insertEv.mp hy with hy | hy
      · subst hy
        cases hle2 : eventLess y x
        · rfl
        · exact absurd hle2 (by simp_all)
      · exact hx y hy

lemma sortTimeline_pairwise (l : List Event) :
    List.Pairwise (fun a b => eventLess b a = false) (sortTimeline l) := by
  induction l with
  | nil => simp [sortTimeline]
  | cons e es ih => exact pairwise_insertEv ih

lemma sortTimeline_perm (l : List Event) : (sortTimeline l).Perm l := by
  induction l with
  | nil => simp [sortTimeline]
  | cons e es ih =>
    exact (insertEv_perm e (sortTimeline es)).trans (ih.cons e)

lemma findM_mem {line : String} : ∀ {ms : List EventMatcher} {m : EventMatcher},
    findM line ms = some m → m ∈ ms := by
  intro ms
  induction ms with
  | nil => intro m h; simp [findM] at h
  | cons x xs ih =>
    intro m h
    simp only [findM] at h
    by_cases hx : x.Match line = true
    · rw [if_pos hx] at h
      cases h
      exact List.mem_cons_self x xs
    · rw [if_neg hx] at h
      exact List.mem_cons_of_mem x (ih h)

lemma get_inv {m : EventMatcher} (hm : m ∈ eventMatchers) {sc : Scanner} {c : Nat}
    {ev : Event} {sc2 : Scanner} {c2 : Nat}
    (h : m.Get sc c = some (ev, sc2, c2)) :
    c2 = c + 1 ∧ ev.GlobalOrderID = c + 1 ∧ ev.Node = 0 := by
  fin_cases hm <;>
  · simp only [matcherShifting, matcherQuorum, matcherStateTransfer, matcherRecovered,
      matcherInterruptor, matcherPidEnded, matcherNormalShutdown, matcherStartup,
      matcherInnodbShutdown, matcherShutdownComplete, matcherPrimaryNotPossible,
      matcherView, matcherXtrabackup, matcherWsrepXid, matcherConsistency,
      matcherSlaveSqlError, matcherFatalError,
      getShifting, getQuorum, getStateTransfer, getRecovered, getInterruptor,
      getPidEnded, getNormalShutdown, getStartup, getInnodbShutdown,
      getShutdownComplete, getPrimaryNotPossible, getView, getXtrabackup,
      getWsrepXid, getConsistency, getSlaveSqlError, getFatalError, NewEvent] at h
    repeat any_goals split at h
    all_goals simp_all
    all_goals (obtain ⟨h1, h2, h3⟩ := h; subst h1; subst h3; exact ⟨rfl, rfl⟩)

lemma runLoop_inv : ∀ (fuel : Nat) (lines : List String) (node c : Nat)
    (evs : List Event) (c2 : Nat),
    runLoop node fuel lines c = some (evs, c2) →
    c ≤ c2 ∧ (∀ e ∈ evs, c < e.GlobalOrderID ∧ e.GlobalOrderID ≤ c2 ∧ e.Node = node) ∧
      List.Pairwise (fun a b => a.GlobalOrderID < b.GlobalOrderID) evs := by
  intro fuel
  induction fuel with
  | zero =>
    intro lines node c evs c2 h
    simp only [runLoop, Option.some.injEq, Prod.mk.injEq] at h
    obtain ⟨h1, h2⟩ := h
    subst h1
    subst h2
    simp
  | succ f ih =>
    intro lines node c evs c2 h
    cases lines with
    | nil =>
      simp only [runLoop, Option.some.injEq, Prod.mk.injEq] at h
      obtain ⟨h1, h2⟩ := h
      subst h1
      subst h2
      simp
    | cons line rest =>
      simp only [runLoop] at h
      split at h
      · exact ih rest node c evs c2 h
      · rename_i m hfm
        split at h
        · exact Option.noConfusion h
        · rename_i trip ev sc' c' hg
          cases hrl : runLoop node f sc'.rest c' with
          | none =>
            rw [hrl] at h
            exact Option.noConfusion h
          | some p =>
            rw [hrl] at h
            obtain ⟨evs', c''⟩ := p
            simp only [Option.map, Option.some.injEq, Prod.mk.injEq] at h
            obtain ⟨h1, h2⟩ := h
            obtain ⟨hc', hgid, hnode⟩ := get_inv (findM_mem hfm) hg
            obtain ⟨hle, hmem, hpw⟩ := ih sc'.rest node c' evs' c'' hrl
            subst h1
            subst h2
            refine ⟨by omega, ?_, ?_⟩
            · intro e he
              rcases List.mem_cons.mp he with he | he
              · subst he
                refine ⟨?_, ?_, rfl⟩
                · simp [hgid]
                · simp [hgid]
                  omega
              · obtain ⟨ha, hb, hc⟩ := hmem e he
                exact ⟨by omega, hb, hc⟩
            · refine List.Pairwise.cons ?_ hpw
              intro b hb
              obtain ⟨ha, _, _⟩ := hmem b hb
              simp [hgid]
              omega

lemma processFilesAux_inv : ∀ (files : List (List String)) (i c : Nat)
    (evs : List Event) (c2 : Nat),
    processFilesAux files i c = some (evs, c2) →
    c ≤ c2 ∧ (∀ e ∈ evs, c < e.GlobalOrderID ∧ e.GlobalOrderID ≤ c2 ∧ i ≤ e.Node) ∧
      List.Pairwise (fun a b => a.GlobalOrderID < b.GlobalOrderID) evs ∧
      List.Pairwise (fun a b => a.Node ≤ b.Node) evs := by
  intro files
  induction files with
  | nil =>
    intro i c evs c2 h
    simp only [processFilesAux, Option.some.injEq, Prod.mk.injEq] at h
    obtain ⟨h1, h2⟩ := h
    subst h1
    subst h2
    simp
  | cons f fs ih =>
    intro i c evs c2 h
    simp only [processFilesAux] at h
    split at h
    · exact Option.noConfusion h
    · rename_i p evs1 c' hg
      cases hr : processFilesAux fs (i + 1) c' with
      | none =>
        rw [hr] at h
        exact Option.noConfusion h
      | some q =>
        rw [hr] at h
        obtain ⟨evs2, c''⟩ := q
        simp only [Option.map, Option.some.injEq, Prod.mk.injEq] at h
        obtain ⟨h1, h2⟩ := h
        subst h1
        subst h2
        obtain ⟨hle1, hmem1, hpw1⟩ := runLoop_inv (f.length + 1) f i c evs1 c' hg
        obtain ⟨hle2, hmem2, hpw2, hpwn2⟩ := ih (i + 1) c' evs2 c'' hr
        refine ⟨by omega, ?_, ?_, ?_⟩
        · intro e he
          rcases List.mem_append.mp he with he | he
          · obtain ⟨ha, hb, hc⟩ := hmem1 e he
            exact ⟨ha, by omega, by omega⟩
          · obtain ⟨ha, hb, hc⟩ := hmem2 e he
            exact ⟨by omega, hb, by omega⟩
        · rw [List.pairwise_append]
          refine ⟨hpw1, hpw2, ?_⟩
          intro a ha b hb
          obtain ⟨_, ha2, _⟩ := hmem1 a ha
          obtain ⟨hb1, _, _⟩ := hmem2 b hb
          omega
        · rw [List.pairwise_append]
          refine ⟨?_, hpwn2, ?_⟩
          · exact hpw1.imp_of_mem
              (fun hma hmb hab => by
                rw [(hmem1 _ hma).2.2, (hmem1 _ hmb).2.2])
          · intro a ha b hb
            rw [(hmem1 a ha).2.2]
            have := (hmem2 b hb).2.2
            omega

lemma eventLess_of_not_less_ne {a b : Event} (h1 : eventLess b a = false)
    (h2 : a.GlobalOrderID ≠ b.GlobalOrderID) : eventLess a b = true := by
  cases h : eventLess a b
  · obtain ⟨_, hgid⟩ := eventLess_both_false h h1
    exact absurd hgid h2
  · rfl

/-- C1: the cross-node merge, applied to the concatenation of all per-node
event lists, produces a sequence sorted strictly ascending by the compound key
`(timestamp, sequence)`: for every pair of events in the merged output, the
earlier one satisfies the `sort.Slice` comparison against the later one, that
is, it has a strictly smaller timestamp, or an equal timestamp and a strictly
smaller sequence.  Since the sequence identifiers are assigned in discovery
order (node-major, then file-line order), equal-timestamp events appear in
discovery order. -/
theorem merged_timeline_sorted_by_timestamp_then_sequence
    (files : List (List String)) (out : List Event)
    (h : mainTimeline files = some out) :
    List.Pairwise (fun a b => eventLess a b = true) out := by
  unfold mainTimeline at h
  cases hp : processFilesAux files 0 0 with
  | none =>
    rw [hp] at h
    exact Option.noConfusion h
  | some p =>
    rw [hp] at h
    obtain ⟨tl, c2⟩ := p
    simp only [Option.map, Option.some.injEq] at h
    subst h
    obtain ⟨-, -, hpw, -⟩ := processFilesAux_inv files 0 0 tl c2 hp
    have hsorted := sortTimeline_pairwise tl
    have hne : List.Pairwise (fun a b : Event => a.GlobalOrderID ≠ b.GlobalOrderID)
        (sortTimeline tl) := by
      have h1 : List.Pairwise (fun a b : Event => a.GlobalOrderID ≠ b.GlobalOrderID) tl :=
        hpw.imp (fun hab => Nat.ne_of_lt hab)
      exact ((sortTimeline_perm tl).pairwise_iff (fun hab => Ne.symm hab)).mpr h1
    exact (hsorted.and hne).imp (fun hab => eventLess_of_not_less_ne hab.1 hab.2)

/-- Closed instance of the merged-order theorem: the tie-break example of the
specification, a startup on node 0 and a shutdown on node 2 in the identical
second, merged with node 0 first. -/
theorem merged_timeline_sorted_witness :
    List.Pairwise (fun a b => eventLess a b = true)
      [⟨⟨2017, 5, 6, 16, 53, 13⟩, 1, 0, "MySQL startup",
          "2017-05-06 16:53:13 140445682804608 [Note] mysqld starting as process 24588 ..."⟩,
        ⟨⟨2017, 5, 6, 16, 53, 13⟩, 2, 2, "<success>Normal Shutdown</success>",
          "2017-05-06 16:53:13 139716968405760 [Note] mysqld: Normal shutdown"⟩] :=
  merged_timeline_sorted_by_timestamp_then_sequence
    [["2017-05-06 16:53:13 140445682804608 [Note] mysqld starting as process 24588 ..."],
      [],
      ["2017-05-06 16:53:13 139716968405760 [Note] mysqld: Normal shutdown"]]
    _ (by decide)

/-- C6: across a run, the sequence identifiers assigned at event construction
are strictly increasing along the concatenated discovery-order timeline (hence
unique across all nodes), node indices are monotone along that order
(node-major discovery), and every event of a lower-indexed node has a strictly
smaller sequence than every event of a higher-indexed node. -/
theorem sequence_ids_strictly_increasing_in_discovery_order
    (files : List (List String)) (tl : List Event) (c2 : Nat)
    (h : processFilesAux files 0 0 = some (tl, c2)) :
    List.Pairwise (fun a b => a.GlobalOrderID < b.GlobalOrderID) tl ∧
    List.Pairwise (fun a b => a.Node ≤ b.Node) tl ∧
    (∀ a ∈ tl, ∀ b ∈ tl, a.Node < b.Node → a.GlobalOrderID < b.GlobalOrderID) := by
  obtain ⟨-, -, hpw, hpwn⟩ := processFilesAux_inv files 0 0 tl c2 h
  refine ⟨hpw, hpwn, ?_⟩
  intro a ha b hb hab
  obtain ⟨i, hi, rfl⟩ := List.getElem_of_mem ha
  obtain ⟨j, hj, rfl⟩ := List.getElem_of_mem hb
  rcases Nat.lt_trichotomy i j with hij | hij | hij
  · exact List.pairwise_iff_getElem.mp hpw i j hi hj hij
  · subst hij
    omega
  · have := List.pairwise_iff_getElem.mp hpwn j i hj hi hij
    omega

/-- Closed instance of the sequence-identifier theorem at a concrete
two-node run. -/
theorem sequence_ids_strictly_increasing_witness :
    List.Pairwise (fun a b : Event => a.GlobalOrderID < b.GlobalOrderID)
      [⟨⟨2017, 5, 6, 16, 53, 13⟩, 1, 0, "MySQL startup",
          "2017-05-06 16:53:13 140445682804608 [Note] mysqld starting as process 24588 ..."⟩,
        ⟨⟨2017, 5, 6, 16, 53, 13⟩, 2, 2, "<success>Normal Shutdown</success>",
          "2017-05-06 16:53:13 139716968405760 [Note] mysqld: Normal shutdown"⟩] :=
  (sequence_ids_strictly_increasing_in_discovery_order
    [["2017-05-06 16:53:13 140445682804608 [Note] mysqld starting as process 24588 ..."],
      [],
      ["2017-05-06 16:53:13 139716968405760 [Note] mysqld: Normal shutdown"]]
    _ 2 (by decide)).1

/-- The canonical sample line of the recovered position matcher, from the
comment at main.go:203. -/
def recoveredSampleLine : String :=
  "2017-06-14 14:02:28 139993574066048 [Note] WSREP: Recovered position f3d1aa70-31a3-11e7-908c-f7a5ad9e63b1:40847697"

/-- C4 (code bug evidence): the canonical sample line of the recovered
position event kind is recognized by its matcher, yet feeding it through the
extraction pipeline panics instead of yielding an event: the sample carries a
default-layout timestamp, while the extractor calls `getTimeMysqld`, whose
six-digit-date pattern finds no match in the line, so the Go code indexes a
nil submatch slice.  The pipeline for the whole file aborts with `none`. -/
theorem recovered_position_sample_panics :
    matcherRecovered.Match recoveredSampleLine = true ∧
    getEventsFromNode 0 [recoveredSampleLine] 0 = none := by
  constructor
  · decide
  · decide

/-- The first five lines of a quorum results record, the matched line plus
four more, after which the file ends: a truncated nine-line record. -/
def truncatedQuorumFile : List String :=
  ["2017-05-06 16:53:13 140445682804608 [Note] mysqld starting as process 24588 ...",
   "2015-10-28 14:28:50 553 [Note] WSREP: Quorum results:",
   "    version    = 3,",
   "    component  = PRIMARY,",
   "    conf_id    = 4,",
   "    members    = 2/3 (joined/total),"]

/-- C2 (counterexample): a matched quorum-results record requiring 9 lines
with only 5 lines remaining in the file does NOT yield a truncated-record
failure without an event: the record reader pads the missing lines with empty
strings and the quorum event IS emitted (as the second event, after the prior
startup event), its raw text ending in four empty padded lines. -/
theorem truncated_quorum_record_still_emits_event :
    getEventsFromNode 0 truncatedQuorumFile 0 =
      some ([⟨⟨2017, 5, 6, 16, 53, 13⟩, 1, 0, "MySQL startup",
          "2017-05-06 16:53:13 140445682804608 [Note] mysqld starting as process 24588 ..."⟩,
        ⟨⟨2015, 10, 28, 14, 28, 50⟩, 2, 0,
          "Component: <success>PRIMARY</success>, Members: <danger>2/3</danger>",
          "2015-10-28 14:28:50 553 [Note] WSREP: Quorum results:\n    version    = 3,\n    component  = PRIMARY,\n    conf_id    = 4,\n    members    = 2/3 (joined/total),\n\n\n\n"⟩],
        2) := by
  decide

lemma scanLines_length : ∀ (n : Nat) (sc : Scanner), (scanLines sc n).1.length = n := by
  intro n
  induction n with
  | zero =>
    intro sc
    rfl
  | succ m ih =>
    intro sc
    cases m with
    | zero => rfl
    | succ k =>
      simp only [scanLines, List.length_cons]
      rw [ih]

/-- C2 (amended): the record reader never fails on a short stream — reading
`n` lines always produces exactly `n` entries, the entries beyond the end of
the stream being empty strings — and a quorum record matched with only 5 lines
remaining is padded to 9 lines and still produces its event, while the event
extracted before it in the same file is also produced. -/
theorem truncated_record_padded_with_empty_lines :
    (∀ (n : Nat) (sc : Scanner), (scanLines sc n).1.length = n) ∧
    scanLines ⟨["    version    = 3,"],
        "2015-10-28 14:28:50 553 [Note] WSREP: Quorum results:"⟩ 9 =
      (["2015-10-28 14:28:50 553 [Note] WSREP: Quorum results:",
        "    version    = 3,", "", "", "", "", "", "", ""], ⟨[], ""⟩) ∧
    (getEventsFromNode 0 truncatedQuorumFile 0).map (fun p => p.1.length) = some 2 := by
  refine ⟨fun n sc => scanLines_length n sc, by decide, by decide⟩

/-- The canonical startup sample line, from the comment at main.go:269,
abbreviated to its structural content. -/
def startupSampleLine : String :=
  "2017-05-06 16:53:13 140445682804608 [Note] mysqld starting as process 24588 ..."

/-- C9 (counterexample): an event is not immutable after construction, and the
extractor does not return it tagged with the owning pipeline node index: the
startup extractor run inside the node-1 pipeline constructs the event with
node 0 (`NewEvent` is always called with node 0), and the pipeline then
overwrites the node field, so the emitted event differs from the constructed
one. -/
theorem event_node_overwritten_after_construction :
    matcherStartup.Get ⟨[], startupSampleLine⟩ 0 =
      some (⟨⟨2017, 5, 6, 16, 53, 13⟩, 1, 0, "MySQL startup", startupSampleLine⟩,
        ⟨[], startupSampleLine⟩, 1) ∧
    getEventsFromNode 1 [startupSampleLine] 0 =
      some ([⟨⟨2017, 5, 6, 16, 53, 13⟩, 1, 1, "MySQL startup", startupSampleLine⟩], 1) ∧
    (⟨⟨2017, 5, 6, 16, 53, 13⟩, 1, 0, "MySQL startup", startupSampleLine⟩ : Event) ≠
      ⟨⟨2017, 5, 6, 16, 53, 13⟩, 1, 1, "MySQL startup", startupSampleLine⟩ := by
  refine ⟨by decide, by decide, by decide⟩

/-- C9 (amended): every extractor constructs its event with node index 0; the
pipeline then overwrites the node field with its own node index, after which
no field is modified: every event emitted by a pipeline carries that pipeline
node index, and the merge only permutes the event list, altering no event. -/
theorem events_tagged_by_pipeline_and_never_modified_after :
    (∀ m ∈ eventMatchers, ∀ (sc : Scanner) (c : Nat) (ev : Event) (sc2 : Scanner) (c2 : Nat),
      m.Get sc c = some (ev, sc2, c2) → ev.Node = 0) ∧
    (∀ (node : Nat) (lines : List String) (c : Nat) (evs : List Event) (c2 : Nat),
      getEventsFromNode node lines c = some (evs, c2) → ∀ e ∈ evs, e.Node = node) ∧
    (∀ l : List Event, (sortTimeline l).Perm l) := by
  refine ⟨?_, ?_, sortTimeline_perm⟩
  · intro m hm sc c ev sc2 c2 h
    exact (get_inv hm h).2.2
  · intro node lines c evs c2 h e he
    exact ((runLoop_inv (lines.length + 1) lines node c evs c2 h).2.1 e he).2.2

/-- Closed instance of the node-tagging theorem: the node-1 pipeline emits the
startup event tagged with node 1. -/
theorem events_tagged_by_pipeline_witness :
    (⟨⟨2017, 5, 6, 16, 53, 13⟩, 1, 1, "MySQL startup", startupSampleLine⟩ : Event).Node = 1 :=
  events_tagged_by_pipeline_and_never_modified_after.2.1 1 [startupSampleLine] 0
    [⟨⟨2017, 5, 6, 16, 53, 13⟩, 1, 1, "MySQL startup", startupSampleLine⟩] 1
    (by decide) _ (by simp)

/-- C10: a line containing the Shifting recognition signature but not the
payload pattern (no arrow and no TO marker) makes the extractor index a nil
submatch result, a runtime panic that aborts extraction of the whole file
instead of a failure scoped to that record: the defective line followed by a
healthy startup line yields no events at all, while the healthy line alone
yields its event. -/
theorem signature_without_payload_pattern_panics_whole_file :
    getEventsFromNode 0
      ["2015-10-28 16:36:52 10144 [Note] WSREP: Shifting weird", startupSampleLine] 0 = none ∧
    getEventsFromNode 0 [startupSampleLine] 0 =
      some ([⟨⟨2017, 5, 6, 16, 53, 13⟩, 1, 0, "MySQL startup", startupSampleLine⟩], 1) := by
  refine ⟨by decide, by decide⟩

lemma findM_first : ∀ (ms : List EventMatcher) (line : String) (m : EventMatcher),
    findM line ms = some m →
    m.Match line = true ∧
      ∃ pre post, ms = pre ++ m :: post ∧ ∀ m2 ∈ pre, m2.Match line = false := by
  intro ms line
  induction ms with
  | nil =>
    intro m h
    simp [findM] at h
  | cons x xs ih =>
    intro m h
    simp only [findM] at h
    by_cases hx : x.Match line = true
    · rw [if_pos hx] at h
      cases h
      exact ⟨hx, [], xs, rfl, by simp⟩
    · rw [if_neg hx] at h
      obtain ⟨hm, pre, post, heq, hall⟩ := ih m h
      refine ⟨hm, x :: pre, post, by rw [heq, List.cons_append], ?_⟩
      intro m2 hm2
      rcases List.mem_cons.mp hm2 with h2 | h2
      · subst h2
        exact Bool.not_eq_true _ ▸ Bool.of_not_eq_true hx
      · exact hall m2 h2

lemma findM_none : ∀ (ms : List EventMatcher) (line : String),
    findM line ms = none ↔ ∀ m ∈ ms, m.Match line = false := by
  intro ms line
  induction ms with
  | nil => simp [findM]
  | cons x xs ih =>
    simp only [findM]
    by_cases hx : x.Match line = true
    · rw [if_pos hx]
      simp [hx]
    · rw [if_neg hx]
      rw [ih]
      constructor
      · intro hall m hm
        rcases List.mem_cons.mp hm with h2 | h2
        · subst h2
          exact Bool.of_not_eq_true hx
        · exact hall m h2
      · intro hall m hm
        exact hall m (List.mem_cons_of_mem x hm)

/-- C7: matchers are consulted in the fixed registry order for every line: a
selected matcher has its signature contained in the line and every matcher
listed before it does not match (first match wins, by priority rather than
pattern disjointness); no matcher is selected exactly when no registered
signature is contained in the line, and such a line produces no event — the
scanning loop simply moves to the next line with the counter unchanged.
Concretely, a line containing both the Shifting signature (registry position
0) and the startup signature (registry position 7) fires only the Shifting
extractor. -/
theorem first_matching_matcher_wins :
    (∀ (line : String) (m : EventMatcher), findM line eventMatchers = some m →
      m.Match line = true ∧
        ∃ pre post, eventMatchers = pre ++ m :: post ∧ ∀ m2 ∈ pre, m2.Match line = false) ∧
    (∀ line : String, findM line eventMatchers = none ↔
      ∀ m ∈ eventMatchers, m.Match line = false) ∧
    (∀ (node fuel : Nat) (line : String) (rest : List String) (c : Nat),
      findM line eventMatchers = none →
      runLoop node (fuel + 1) (line :: rest) c = runLoop node fuel rest c) ∧
    getEventsFromNode 0
      ["2015-10-28 16:36:52 10144 [Note] WSREP: Shifting PRIMARY -> JOINER (TO: 31389) starting as process"] 0 =
      some ([⟨⟨2015, 10, 28, 16, 36, 52⟩, 1, 0, "PRIMARY => <success>JOINER</success>",
        "2015-10-28 16:36:52 10144 [Note] WSREP: Shifting PRIMARY -> JOINER (TO: 31389) starting as process"⟩], 1) := by
  refine ⟨fun line m h => findM_first eventMatchers line m h,
    fun line => findM_none eventMatchers line, ?_, by decide⟩
  intro node fuel line rest c hn
  simp only [runLoop, hn]

/-- Closed instance of the first-match theorem: on a line matched by no
registered signature the loop step skips the line and emits nothing. -/
theorem first_matching_matcher_wins_witness :
    runLoop 0 (1 + 1) ["nothing interesting here"] 0 = runLoop 0 1 [] 0 :=
  first_matching_matcher_wins.2.2.1 0 1 "nothing interesting here" [] 0 (by rfl)

/-- The ten state names ranked by the `shiftState` table (main.go:74). -/
def shiftStates : List String :=
  ["ERROR", "DESTROYED", "CLOSED", "OPEN", "PRIMARY", "JOINER", "DONOR/DESYNCED",
   "DONOR", "JOINED", "SYNCED"]

/-- A state shift line in the canonical sample shape, with the two state
names spliced in. -/
def shiftLine (f t : String) : String :=
  "2015-10-28 16:36:52 10144 [Note] WSREP: Shifting " ++ f ++ " -> " ++ t ++ " (TO: 31389)"

/-- C5: for every pair of states of the rank table, the state shift extractor
classifies the transition as regressive — marking the destination state with
the danger markup — exactly when the rank of the destination state is lower
than the rank of the origin state; in particular PRIMARY (50) to JOINER (60)
is marked a success and SYNCED (90) to OPEN (40) a danger. -/
theorem state_shift_regressive_iff_lower_rank :
    ∀ f ∈ shiftStates, ∀ t ∈ shiftStates,
      (getShifting ⟨[], shiftLine f t⟩ 0).map (fun p => p.1.Message) =
        some (f ++ " => " ++
          (if shiftState t < shiftState f then printDanger t else printSuccess t)) ∧
      ((getShifting ⟨[], shiftLine f t⟩ 0).map (fun p => p.1.Message) =
          some (f ++ " => " ++ printDanger t) ↔ shiftState t < shiftState f) := by
  decide

/-- Closed instance of the state shift theorem: the SYNCED to OPEN transition
(rank 90 down to 40) is marked regressive. -/
theorem state_shift_regressive_witness :
    (getShifting ⟨[], shiftLine "SYNCED" "OPEN"⟩ 0).map (fun p => p.1.Message) =
      some ("SYNCED => " ++ printDanger "OPEN") :=
  (state_shift_regressive_iff_lower_rank "SYNCED" (by decide) "OPEN" (by decide)).2.mpr
    (by decide)

/-- C3 (counterexample): a matched line whose embedded timestamp is absent
does not always yield an event with a sentinel timestamp: a line shorter than
19 bytes matched by a default-layout matcher makes the Go code slice beyond
the end of the string, a panic that aborts the whole file; the healthy startup
line after it is lost rather than extraction continuing. -/
theorem short_matched_line_panics_whole_file :
    findM " Fatal error: ab" eventMatchers = some matcherFatalError ∧
    getEventsFromNode 0 [" Fatal error: ab", startupSampleLine] 0 = none := by
  refine ⟨by rfl, by decide⟩

/-- C3 (amended): timestamp normalization failure is only recovered locally
when the matched line is at least 19 bytes long under the default layout: the
19-byte prefix failing to parse yields the zero sentinel timestamp, the event
is still emitted, and extraction of the remaining lines continues (shown here
for a line recognized by the startup matcher, the hypotheses ruling out the
earlier-priority signatures); a matched line shorter than 19 bytes, or a
regex-layout line without its timestamp pattern, instead panics and aborts the
file. -/
theorem malformed_default_timestamp_emits_zero_time_and_continues
    (l : String) (rest : List String) (n c : Nat)
    (h0 : containsSeq "WSREP: Shifting".data l.data = false)
    (h1 : containsSeq "WSREP: Quorum results:".data l.data = false)
    (h2 : containsSeq "WSREP: State transfer required:".data l.data = false)
    (h3 : containsSeq "WSREP: Recovered position ".data l.data = false)
    (h4 : containsSeq "SST disabled due to danger of data loss".data l.data = false)
    (h5 : containsSeq " from pid file ".data l.data = false)
    (h6 : containsSeq "mysqld: Normal shutdown".data l.data = false)
    (h7 : containsSeq "starting as process".data l.data = true)
    (hlen : 19 ≤ l.data.length)
    (hparse : parseDefault (l.data.take 19) = none) :
    getEventsFromNode n (l :: rest) c =
      (getEventsFromNode n rest (c + 1)).map
        (fun p => (⟨zeroTime, c + 1, n, "MySQL startup", l⟩ :: p.1, p.2)) := by
  have hfm : findM l eventMatchers = some matcherStartup := by
    simp [findM, eventMatchers, EventMatcher.Match, matcherShifting, matcherQuorum,
      matcherStateTransfer, matcherRecovered, matcherInterruptor, matcherPidEnded,
      matcherNormalShutdown, matcherStartup, h0, h1, h2, h3, h4, h5, h6, h7]
  have hlt : ¬ (l.data.length < 19) := by omega
  have hlt2 : ¬ (l.length < 19) := hlt
  have hget : matcherStartup.Get ⟨rest, l⟩ c =
      some (⟨zeroTime, c + 1, 0, "MySQL startup", l⟩, ⟨rest, l⟩, c + 1) := by
    simp [matcherStartup, getStartup, scanLines, getTimeDefault, NewEvent, joinLines,
      hlt, hlt2, hparse]
  unfold getEventsFromNode
  simp only [List.length_cons]
  simp only [runLoop, hfm, hget]

/-- Closed instance of the malformed-timestamp theorem: a startup line whose
first 19 bytes are not a timestamp still yields its event, stamped with the
zero time. -/
theorem malformed_default_timestamp_witness :
    getEventsFromNode 0 ["not-a-timestamp-xxx starting as process"] 0 =
      some ([⟨zeroTime, 1, 0, "MySQL startup", "not-a-timestamp-xxx starting as process"⟩], 1) :=
  (malformed_default_timestamp_emits_zero_time_and_continues
    "not-a-timestamp-xxx starting as process" [] 0 0 (by decide) (by decide) (by decide)
    (by decide) (by decide) (by decide) (by decide) (by decide) (by decide)
    (by decide)).trans (by decide)

/-- The decimal digit characters. -/
def digitChar : Nat → Char
  | 0 => '0'
  | 1 => '1'
  | 2 => '2'
  | 3 => '3'
  | 4 => '4'
  | 5 => '5'
  | 6 => '6'
  | 7 => '7'
  | 8 => '8'
  | 9 => '9'
  | _ => '?'

/-- Canonical decimal digit list of a number, most significant first, with a
fuel argument keeping the recursion structural. -/
def natDigitsAux : Nat → Nat → List Char
  | 0, _ => []
  | fuel + 1, n =>
    if n < 10 then [digitChar n]
    else natDigitsAux fuel (n / 10) ++ [digitChar (n % 10)]

/-- Canonical decimal digit list of a number (no leading zeros). -/
def natDigits (n : Nat) : List Char := natDigitsAux (n + 1) n

/-- Canonical decimal string of a number, used to build log record inputs. -/
def natStr (n : Nat) : String := ⟨natDigits n⟩

/-- Value of a decimal digit list, most significant first. -/
def digitsVal (l : List Char) : Nat := l.foldl (fun acc ch => acc * 10 + digitVal ch) 0

lemma digitVal_digitChar {d : Nat} (h : d < 10) : digitVal (digitChar d) = d := by
  interval_cases d <;> rfl

lemma isDigit_digitChar {d : Nat} (h : d < 10) : (digitChar d).isDigit = true := by
  interval_cases d <;> rfl

lemma natDigitsAux_val : ∀ (fuel n : Nat), n < fuel → digitsVal (natDigitsAux fuel n) = n := by
  intro fuel
  induction fuel with
  | zero => omega
  | succ f ih =>
    intro n hn
    by_cases h10 : n < 10
    · simp [natDigitsAux, h10, digitsVal, List.foldl, digitVal_digitChar h10]
    · have hdiv : n / 10 < f := by
        have h1 : n / 10 < n := Nat.div_lt_self (by omega) (by omega)
        omega
      simp only [natDigitsAux, h10, if_false, digitsVal, List.foldl_append]
      have hmod : n % 10 < 10 := Nat.mod_lt n (by omega)
      have := ih (n / 10) hdiv
      simp only [digitsVal] at this
      simp [List.foldl, this, digitVal_digitChar hmod]
      omega

lemma natDigits_inj {a b : Nat} (h : natDigits a = natDigits b) : a = b := by
  have ha := natDigitsAux_val (a + 1) a (by omega)
  have hb := natDigitsAux_val (b + 1) b (by omega)
  unfold natDigits at h
  rw [h] at ha
  rw [hb] at ha
  omega

lemma natDigitsAux_digits : ∀ (fuel n : Nat), ∀ ch ∈ natDigitsAux fuel n, ch.isDigit = true := by
  intro fuel
  induction fuel with
  | zero =>
    intro n ch hch
    simp [natDigitsAux] at hch
  | succ f ih =>
    intro n ch hch
    by_cases h10 : n < 10
    · simp [natDigitsAux, h10] at hch
      subst hch
      exact isDigit_digitChar h10
    · simp only [natDigitsAux, h10, if_false, List.mem_append] at hch
      rcases hch with hch | hch
      · exact ih (n / 10) ch hch
      · simp at hch
        subst hch
        exact isDigit_digitChar (Nat.mod_lt n (by omega))

lemma natDigits_ne_nil (n : Nat) : natDigits n ≠ [] := by
  unfold natDigits natDigitsAux
  by_cases h10 : n < 10
  · simp [h10]
  · simp [h10]

lemma beginsWith_self_append (xs ys : List Char) : beginsWith xs (xs ++ ys) = true := by
  induction xs with
  | nil => rfl
  | cons a as ih => simp [beginsWith, ih]

lemma splitAtLast_append_last {xs : List Char} (h : ',' ∉ xs) :
    splitAtLast ',' (xs ++ [',']) = some (xs, []) := by
  induction xs with
  | nil => rfl
  | cons c cs ih =>
    have hc : c ≠ ',' := by
      intro hc
      exact h (hc ▸ List.mem_cons_self c cs)
    have hcs : ',' ∉ cs := fun hm => h (List.mem_cons_of_mem c hm)
    simp only [List.cons_append, splitAtLast, List.append_eq, ih hcs]

lemma span_digits (xs : List Char) (y : Char) (ys : List Char)
    (hx : ∀ x ∈ xs, x.isDigit = true) (hy : y.isDigit = false) :
    (xs ++ y :: ys).takeWhile Char.isDigit = xs ∧
    (xs ++ y :: ys).dropWhile Char.isDigit = y :: ys := by
  induction xs with
  | nil => simp [List.takeWhile, List.dropWhile, hy]
  | cons a as ih =>
    have ha : a.isDigit = true := hx a (List.mem_cons_self a as)
    have has : ∀ x ∈ as, x.isDigit = true := fun x hm => hx x (List.mem_cons_of_mem a hm)
    obtain ⟨ih1, ih2⟩ := ih has
    simp [List.takeWhile, List.dropWhile, ha, ih1, ih2]

lemma beginsWith_cons_ne {p c : Char} {pr l : List Char} (h : (p == c) = false) :
    beginsWith (p :: pr) (c :: l) = false := by
  simp [beginsWith]
  intro hpc
  rw [hpc] at h
  simp at h

lemma subFind_cons_ne {pat : List Char} {c : Char} {l : List Char}
    (hne : beginsWith pat (c :: l) = false) :
    subFind pat (c :: l) = (subFind pat l).map (fun p => (c :: p.1, p.2)) := by
  simp [subFind, hne]

lemma beginsWith_self (xs : List Char) : beginsWith xs xs = true := by
  have := beginsWith_self_append xs []
  simpa using this

lemma subFind_append_self {pat l : List Char} (hp : pat ≠ []) :
    subFind pat (pat ++ l) = some ([], l) := by
  cases pat with
  | nil => exact absurd rfl hp
  | cons p pr =>
    have hb : beginsWith (p :: pr) ((p :: pr) ++ l) = true := beginsWith_self_append _ _
    simp only [List.cons_append] at hb
    simp only [List.cons_append, subFind, List.append_eq]
    rw [if_pos hb]
    simp [List.drop_left]

lemma componentSubmatch_eval {label : List Char} (hc : ',' ∉ label) :
    componentSubmatch (' ' :: ' ' :: ' ' :: ' ' :: ("component  = ".data ++ (label ++ [',']))) =
      some label := by
  have hpd : "component  = ".data = 'c' :: "omponent  = ".data := by decide
  have hne : ∀ X : List Char, beginsWith "component  = ".data (' ' :: X) = false := by
    intro X
    rw [hpd]
    exact beginsWith_cons_ne (by decide)
  have hself : subFind "component  = ".data ("component  = ".data ++ (label ++ [','])) =
      some ([], label ++ [',']) := subFind_append_self (by rw [hpd]; simp)
  unfold componentSubmatch
  rw [subFind_cons_ne (hne _), subFind_cons_ne (hne _), subFind_cons_ne (hne _),
    subFind_cons_ne (hne _), hself]
  simp [splitAtLast_append_last hc]

lemma membersSubmatch_eval {js ts : List Char}
    (hjs : ∀ ch ∈ js, ch.isDigit = true) (hts : ∀ ch ∈ ts, ch.isDigit = true) :
    membersSubmatch (' ' :: ' ' :: ' ' :: ' ' ::
        ("members    = ".data ++ (js ++ '/' :: (ts ++ " (joined/total),".data)))) =
      some (js, ts) := by
  have hpd : "members    = ".data = 'm' :: "embers    = ".data := by decide
  have hne : ∀ X : List Char, beginsWith "members    = ".data (' ' :: X) = false := by
    intro X
    rw [hpd]
    exact beginsWith_cons_ne (by decide)
  have hself : subFind "members    = ".data
      ("members    = ".data ++ (js ++ '/' :: (ts ++ " (joined/total),".data))) =
      some ([], js ++ '/' :: (ts ++ " (joined/total),".data)) :=
    subFind_append_self (by rw [hpd]; simp)
  unfold membersSubmatch
  rw [subFind_cons_ne (hne _), subFind_cons_ne (hne _), subFind_cons_ne (hne _),
    subFind_cons_ne (hne _), hself]
  obtain ⟨htk, hdp⟩ :=
    span_digits js '/' (ts ++ " (joined/total),".data) hjs (by decide)
  simp only [Option.map, htk, hdp]
  have hts2 := span_digits ts ' '
    ['(', 'j', 'o', 'i', 'n', 'e', 'd', '/', 't', 'o', 't', 'a', 'l', ')', ','] hts (by decide)
  simp [hts2.1, hts2.2, beginsWith_self]

/-- A scanner positioned at the first line of a canonical quorum results
record whose component label and joined/total member figures are spliced in,
with arbitrary further file content after the record. -/
def quorumScanner (label js ts : String) (extra : List String) : Scanner :=
  ⟨["    version    = 3,",
    "    component  = " ++ label ++ ",",
    "    conf_id    = 4,",
    "    members    = " ++ js ++ "/" ++ ts ++ " (joined/total),",
    "    act_id     = 11152,",
    "    last_appl. = -1,",
    "    protocols  = 0/7/3 (gcs/repl/appl),",
    "    group UUID = 98ed75de-7c05-11e5-9743-de4abc22bd11"] ++ extra,
   "2015-10-28 14:28:50 553 [Note] WSREP: Quorum results:"⟩

/-- C8: the quorum results extractor reads a fixed 9-line record (the scanner
is left exactly past it) and classifies the member ratio as complete — success
markup — exactly when the joined count equals the total count, for every
component label; separately, the component is marked a success exactly when
the label is PRIMARY, every other label being flagged with danger
markup. -/
theorem quorum_complete_iff_joined_equals_total (label : String) (j t : Nat)
    (extra : List String) (c : Nat) (hc : ',' ∉ label.data) :
    getQuorum (quorumScanner label (natStr j) (natStr t) extra) c =
      some (⟨⟨2015, 10, 28, 14, 28, 50⟩, c + 1, 0,
        "Component: " ++ (if label = "PRIMARY" then printSuccess label else printDanger label) ++
          ", Members: " ++ (if j = t then printSuccess (natStr j ++ "/" ++ natStr t)
            else printDanger (natStr j ++ "/" ++ natStr t)),
        joinLines ["2015-10-28 14:28:50 553 [Note] WSREP: Quorum results:",
          "    version    = 3,", "    component  = " ++ label ++ ",", "    conf_id    = 4,",
          "    members    = " ++ natStr j ++ "/" ++ natStr t ++ " (joined/total),",
          "    act_id     = 11152,", "    last_appl. = -1,",
          "    protocols  = 0/7/3 (gcs/repl/appl),",
          "    group UUID = 98ed75de-7c05-11e5-9743-de4abc22bd11"]⟩,
        ⟨extra, "    group UUID = 98ed75de-7c05-11e5-9743-de4abc22bd11"⟩, c + 1) := by
  have happ : ∀ s u : String, (s ++ u).data = s.data ++ u.data := fun s u => rfl
  have heta : ∀ s : String, (⟨s.data⟩ : String) = s := fun s => rfl
  have hscan : scanLines (quorumScanner label (natStr j) (natStr t) extra) 9 =
      (["2015-10-28 14:28:50 553 [Note] WSREP: Quorum results:",
        "    version    = 3,", "    component  = " ++ label ++ ",", "    conf_id    = 4,",
        "    members    = " ++ natStr j ++ "/" ++ natStr t ++ " (joined/total),",
        "    act_id     = 11152,", "    last_appl. = -1,",
        "    protocols  = 0/7/3 (gcs/repl/appl),",
        "    group UUID = 98ed75de-7c05-11e5-9743-de4abc22bd11"],
       ⟨extra, "    group UUID = 98ed75de-7c05-11e5-9743-de4abc22bd11"⟩) := rfl
  have ht : getTimeDefault "2015-10-28 14:28:50 553 [Note] WSREP: Quorum results:" =
      some ⟨2015, 10, 28, 14, 28, 50⟩ := by decide
  have hd2 : ("    component  = " ++ label ++ ",").data
      = ' ' :: ' ' :: ' ' :: ' ' :: ("component  = ".data ++ (label.data ++ [','])) := by
    rw [happ, happ]
    rw [show "    component  = ".data = ' ' :: ' ' :: ' ' :: ' ' :: "component  = ".data from
      by decide]
    rw [show ",".data = [','] from by decide]
    simp
  have hd4 : ("    members    = " ++ natStr j ++ "/" ++ natStr t ++ " (joined/total),").data
      = ' ' :: ' ' :: ' ' :: ' ' :: ("members    = ".data ++
          (natDigits j ++ '/' :: (natDigits t ++ " (joined/total),".data))) := by
    rw [happ, happ, happ, happ]
    rw [show "    members    = ".data = ' ' :: ' ' :: ' ' :: ' ' :: "members    = ".data from
      by decide]
    rw [show "/".data = ['/'] from by decide]
    simp [natStr, natDigits]
  have hjd : ∀ ch ∈ natDigits j, ch.isDigit = true := fun ch hch =>
    natDigitsAux_digits (j + 1) j ch hch
  have htd : ∀ ch ∈ natDigits t, ch.isDigit = true := fun ch hch =>
    natDigitsAux_digits (t + 1) t ch hch
  have hiff : ((natStr j : String) = natStr t) ↔ j = t := by
    constructor
    · intro h
      exact natDigits_inj (congrArg String.data h)
    · intro h
      rw [h]
  simp only [getQuorum, hscan, List.headD_cons, List.getD_cons_succ, List.getD_cons_zero, ht]
  rw [hd2, componentSubmatch_eval hc]
  rw [hd4, membersSubmatch_eval hjd htd]
  simp only [heta]
  simp only [natStr] at hiff ⊢
  simp only [hiff]
  simp [NewEvent]

/-- Closed instance of the quorum theorem: a PRIMARY component with a 2/3
member ratio is classified incomplete. -/
theorem quorum_incomplete_members_witness :
    (getQuorum (quorumScanner "PRIMARY" (natStr 2) (natStr 3) []) 0).map
        (fun p => p.1.Message) =
      some "Component: <success>PRIMARY</success>, Members: <danger>2/3</danger>" := by
  rw [quorum_complete_iff_joined_equals_total "PRIMARY" 2 3 [] 0 (by decide)]
  decide
